import Mathlib

set_option maxHeartbeats 1000000

/-!
Shallow embedding of the MediScanner prescription-extraction pipeline:
`PrescriptionImageProcessor.extract_from_image`, `_create_empty_prescription`
and `process_multiple_images` from `app/utils/image_processor.py`, and the
`/uploadMedicalPrescription` route `extract_prescription_data` from
`app/routes/medical.py`, together with theorems settling the specification's
claims about them.

Modelling conventions:
* Python `str` is modelled as `List Char` (`Str`), Python bytes as `List Nat`.
* Python values that flow through the defensive response decoder are modelled
  by the `PyVal` universe (None / bool / number / str / list / dict).
* JSON numbers (Python int/float) are modelled as exact rationals; the
  non-finite extensions `NaN`/`Infinity` and float rounding are not modelled
  (no claim depends on them).
* The external model call and the HTTP/database collaborators are modelled as
  explicit oracle functions passed to the embedded code.
-/

/-- Text is modelled as a list of characters (Python `str`). -/
abbrev Str := List Char

/-- Opaque image payload (Python `bytes`). -/
abbrev Bytes := List Nat

/-- The backquote character (used by the markdown-fence stripping). -/
def backquoteChar : Char := Char.ofNat 96

/-- The double-quote character (JSON string delimiter). -/
def quoteChar : Char := Char.ofNat 34

/-- The backslash character (JSON escape lead-in). -/
def backslashChar : Char := Char.ofNat 92

/-- The single-quote character (Python repr of strings). -/
def squoteChar : Char := Char.ofNat 39

/-- Opening curly brace character. -/
def lbraceChar : Char := Char.ofNat 123

/-- Closing curly brace character. -/
def rbraceChar : Char := Char.ofNat 125

/-- Characters removed by Python `str.strip()` (ASCII whitespace). -/
def pySpace (c : Char) : Bool :=
  c = ' ' || c = '\t' || c = '\n' || c = '\r' || c = Char.ofNat 11 || c = Char.ofNat 12

/-- Left part of Python `str.strip()`. -/
def stripL (l : Str) : Str := l.dropWhile pySpace

/-- Right part of Python `str.strip()`. -/
def stripR (l : Str) : Str := (l.reverse.dropWhile pySpace).reverse

/-- Python `str.strip()`. -/
def pyStrip (l : Str) : Str := stripR (stripL l)

/-- Python `str.startswith(p)`. -/
def startsWith : Str → Str → Bool
  | _, [] => true
  | [], _ :: _ => false
  | c :: l, p :: ps => c == p && startsWith l ps

/-- Python `str.endswith(p)`. -/
def endsWith (l p : Str) : Bool := startsWith l.reverse p.reverse

/-- Python slicing `s[:-n]` (for `n ≤ len s`). -/
def dropRightN (l : Str) (n : Nat) : Str := (l.reverse.drop n).reverse

/-- Python substring test `p in s`. -/
def containsSub : Str → Str → Bool
  | [], p => startsWith [] p
  | c :: l, p => startsWith (c :: l) p || containsSub l p

/-- Python `str.lower()` (ASCII letters; the filenames involved are ASCII). -/
def lowerStr (l : Str) : Str := l.map Char.toLower

/-- Helper for `splitOnDot` carrying the reversed current chunk. -/
def splitOnDotAux : Str → Str → List Str
  | [], acc => [acc.reverse]
  | c :: l, acc => if c = '.' then acc.reverse :: splitOnDotAux l [] else splitOnDotAux l (c :: acc)

/-- Python `s.split('.')`. -/
def splitOnDot (l : Str) : List Str := splitOnDotAux l []

/-- The universe of Python values handled by the defensive response decoder. -/
inductive PyVal where
  | none
  | bool (b : Bool)
  | num (q : Rat)
  | str (s : Str)
  | list (xs : List PyVal)
  | dict (kvs : List (Str × PyVal))

/-- Python truthiness of a value. -/
def PyVal.truthy : PyVal → Bool
  | .none => false
  | .bool b => b
  | .num q => decide (q ≠ 0)
  | .str s => !s.isEmpty
  | .list xs => !xs.isEmpty
  | .dict kvs => !kvs.isEmpty

/-- Lookup in a Python dict (first match; parsed dicts carry unique keys). -/
def dictGet : List (Str × PyVal) → Str → PyVal
  | [], _ => .none
  | (k, v) :: rest, key => if k == key then v else dictGet rest key

/-- Python `d.get(key)` with default `None` (only ever applied to dicts). -/
def PyVal.get (v : PyVal) (key : String) : PyVal :=
  match v with
  | .dict kvs => dictGet kvs key.data
  | _ => .none

/-- Python `a or b`. -/
def pyOr (a b : PyVal) : PyVal := if a.truthy then a else b

/-- Rendering of a Python number by `str()`.  Integers render exactly; for
non-integers we use the exact `a/b` rendering instead of float notation (a
simplification that no claim exercises). -/
def ratRepr (q : Rat) : Str :=
  if q.den = 1 then (toString q.num).data else (toString q).data

mutual

/-- Python `str(v)`. -/
def pyStr : PyVal → Str
  | .none => ("None").data
  | .bool true => ("True").data
  | .bool false => ("False").data
  | .num q => ratRepr q
  | .str s => s
  | .list xs => '[' :: pyReprList xs ++ [']']
  | .dict kvs => lbraceChar :: pyReprKV kvs ++ [rbraceChar]

/-- Python `repr` of a value (as used for elements inside containers). -/
def pyRepr : PyVal → Str
  | .none => ("None").data
  | .bool true => ("True").data
  | .bool false => ("False").data
  | .num q => ratRepr q
  | .str s => squoteChar :: s ++ [squoteChar]
  | .list xs => '[' :: pyReprList xs ++ [']']
  | .dict kvs => lbraceChar :: pyReprKV kvs ++ [rbraceChar]

/-- Comma-separated reprs of list elements. -/
def pyReprList : List PyVal → Str
  | [] => []
  | [x] => pyRepr x
  | x :: y :: rest => pyRepr x ++ (", ").data ++ pyReprList (y :: rest)

/-- Comma-separated `key: value` reprs of dict items. -/
def pyReprKV : List (Str × PyVal) → Str
  | [] => []
  | [(k, v)] => (squoteChar :: k ++ [squoteChar]) ++ (": ").data ++ pyRepr v
  | (k, v) :: p :: rest =>
      (squoteChar :: k ++ [squoteChar]) ++ (": ").data ++ pyRepr v ++ (", ").data ++ pyReprKV (p :: rest)

end

/-- A choice of the model response: either an attribute-style object exposing
`.message.content` (the OpenAI SDK shape), or a plain Python value. -/
inductive RawChoice where
  | obj (message_content : PyVal)
  | py (v : PyVal)

/-- The shape of a raw model response: either an attribute-style object
exposing a `.choices` list, or a plain Python value (e.g. a dict). -/
inductive RawResponse where
  | obj (choices : List RawChoice)
  | py (v : PyVal)

/-- Outcome of the external model invocation: the call raises, or returns a
response object. -/
inductive ModelOutcome where
  | fail
  | ok (response : RawResponse)

/-- Python `x[0]` on the value found under `"choices"`; failure models the
raised `TypeError`/`KeyError` (caught by the inner `except`). -/
def pySub0 : PyVal → Option PyVal
  | .list (x :: _) => some x
  | .str (c :: _) => some (.str [c])
  | _ => Option.none

/-- Selection of the first choice (image_processor.py lines 137-141).
`Except.error` models an exception raised while subscripting. -/
def choiceOf : RawResponse → Except Unit (Option RawChoice)
  | .obj choices => .ok choices.head?
  | .py v =>
      match v with
      | .dict kvs =>
          let cv := dictGet kvs ("choices").data
          if cv.truthy then
            match pySub0 cv with
            | some c => .ok (some (.py c))
            | Option.none => .error ()
          else .ok Option.none
      | _ => .ok Option.none

/-- Extraction of the message content from a choice
(image_processor.py lines 143-155). -/
def contentOf : Option RawChoice → PyVal
  | Option.none => .none
  | some (.obj c) => c
  | some (.py v) =>
      match v with
      | .dict _ =>
          let msg := v.get "message"
          let msgOr := pyOr msg (.dict [])
          match msgOr with
          | .dict _ =>
              match msgOr.get "content" with
              | .none => pyOr (v.get "text") (v.get "content")
              | c => c
          | _ => pyOr (v.get "text") (v.get "content")
      | _ => .none

/-- The text produced for one part of a list-shaped content
(image_processor.py lines 162-166); `none` for skipped parts. -/
def partText : PyVal → Option Str
  | .str s => some s
  | .dict kvs =>
      some (pyStr (pyOr ((PyVal.dict kvs).get "text")
        (pyOr ((PyVal.dict kvs).get "value") (pyOr ((PyVal.dict kvs).get "content") (.str [])))))
  | _ => Option.none

/-- Flattening of the content into text (image_processor.py lines 157-175). -/
def textFromContent : PyVal → Str
  | .str s => pyStrip s
  | .list parts =>
      pyStrip (List.intercalate ['\n'] (((parts.filterMap partText).filter (fun p => !p.isEmpty))))
  | .dict kvs =>
      let e := pyOr ((PyVal.dict kvs).get "text")
        (pyOr ((PyVal.dict kvs).get "value") (pyOr ((PyVal.dict kvs).get "content") (.str [])))
      match e with
      | .str s => pyStrip s
      | _ => pyStr e
  | _ => []

/-- The full defensive content extraction (image_processor.py lines 136-189):
any exception inside the inner `try` yields the empty text. -/
def extractText (r : RawResponse) : Str :=
  match choiceOf r with
  | .error _ => []
  | .ok c => textFromContent (contentOf c)

/-- The markdown fence marker `'```'`. -/
def fenceStr : Str := [backquoteChar, backquoteChar, backquoteChar]

/-- The annotated markdown fence marker `'```json'`. -/
def fenceJsonStr : Str := [backquoteChar, backquoteChar, backquoteChar, 'j', 's', 'o', 'n']

/-- Markdown code-fence cleanup (image_processor.py lines 191-198). -/
def cleanupFences (l : Str) : Str :=
  let l1 := if startsWith l fenceJsonStr then l.drop 7 else l
  let l2 := if startsWith l1 fenceStr then l1.drop 3 else l1
  let l3 := if endsWith l2 fenceStr then dropRightN l2 3 else l2
  pyStrip l3

/-- JSON values as produced by `json.loads` (numbers as exact rationals). -/
inductive Json where
  | null
  | bool (b : Bool)
  | num (q : Rat)
  | str (s : Str)
  | arr (xs : List Json)
  | obj (kvs : List (Str × Json))

/-- Whitespace skipped by the JSON grammar. -/
def jsonWs (c : Char) : Bool := c = ' ' || c = '\t' || c = '\n' || c = '\r'

/-- Skip JSON whitespace. -/
def skipWs (cs : Str) : Str := cs.dropWhile jsonWs

/-- Value of a hex digit. -/
def hexVal (c : Char) : Option Nat :=
  if '0' ≤ c ∧ c ≤ '9' then some (c.toNat - 48)
  else if 'a' ≤ c ∧ c ≤ 'f' then some (c.toNat - 87)
  else if 'A' ≤ c ∧ c ≤ 'F' then some (c.toNat - 55)
  else Option.none

/-- Body of a JSON string after the opening quote.  Returns the decoded
characters and the rest of the input.  Surrogate-pair combination of
consecutive escapes is not modelled (no claim involves astral characters). -/
def parseStringBody : Nat → Str → Option (Str × Str)
  | 0, _ => Option.none
  | fuel + 1, cs =>
    match cs with
    | [] => Option.none
    | c :: rest =>
      if c = quoteChar then some ([], rest)
      else if c = backslashChar then
        match rest with
        | [] => Option.none
        | e :: rest2 =>
          if e = quoteChar then
            (parseStringBody fuel rest2).map (fun p => (quoteChar :: p.1, p.2))
          else if e = backslashChar then
            (parseStringBody fuel rest2).map (fun p => (backslashChar :: p.1, p.2))
          else if e = '/' then
            (parseStringBody fuel rest2).map (fun p => ('/' :: p.1, p.2))
          else if e = 'b' then
            (parseStringBody fuel rest2).map (fun p => (Char.ofNat 8 :: p.1, p.2))
          else if e = 'f' then
            (parseStringBody fuel rest2).map (fun p => (Char.ofNat 12 :: p.1, p.2))
          else if e = 'n' then
            (parseStringBody fuel rest2).map (fun p => ('\n' :: p.1, p.2))
          else if e = 'r' then
            (parseStringBody fuel rest2).map (fun p => ('\r' :: p.1, p.2))
          else if e = 't' then
            (parseStringBody fuel rest2).map (fun p => ('\t' :: p.1, p.2))
          else if e = 'u' then
            match rest2 with
            | h1 :: h2 :: h3 :: h4 :: rest3 =>
              match hexVal h1, hexVal h2, hexVal h3, hexVal h4 with
              | some a, some b, some c3, some d =>
                (parseStringBody fuel rest3).map
                  (fun p => (Char.ofNat (((a * 16 + b) * 16 + c3) * 16 + d) :: p.1, p.2))
              | _, _, _, _ => Option.none
            | _ => Option.none
          else Option.none
      else if c.toNat < 32 then Option.none
      else (parseStringBody fuel rest).map (fun p => (c :: p.1, p.2))

/-- A maximal run of decimal digits (failing on an empty run). -/
def parseDigits (cs : Str) : Option (List Char × Str) :=
  let ds := cs.takeWhile Char.isDigit
  if ds.isEmpty then Option.none else some (ds, cs.drop ds.length)

/-- Value of a digit run. -/
def digitsToNat (ds : List Char) : Nat :=
  ds.foldl (fun a c => a * 10 + (c.toNat - 48)) 0

/-- A JSON number per the strict grammar `-? int frac? exp?` with no leading
zeros, evaluated exactly as a rational. -/
def parseNumber (cs : Str) : Option (Rat × Str) :=
  let signed : Bool × Str := match cs with
    | '-' :: r => (true, r)
    | _ => (false, cs)
  match parseDigits signed.2 with
  | Option.none => Option.none
  | some (ds, cs2) =>
    if ds.length > 1 ∧ ds.head? = some '0' then Option.none
    else
      let withFrac : Option (Rat × Str) :=
        match cs2 with
        | '.' :: cs3 =>
          match parseDigits cs3 with
          | Option.none => Option.none
          | some (fds, cs4) =>
            some (((digitsToNat ds : Rat) + (digitsToNat fds : Rat) / ((10 : Rat) ^ fds.length)), cs4)
        | _ => some ((digitsToNat ds : Rat), cs2)
      match withFrac with
      | Option.none => Option.none
      | some (base, cs5) =>
        let withExp : Option (Rat × Str) :=
          match cs5 with
          | e :: cs6 =>
            if e = 'e' ∨ e = 'E' then
              let esigned : Bool × Str := match cs6 with
                | '+' :: r => (false, r)
                | '-' :: r => (true, r)
                | _ => (false, cs6)
              match parseDigits esigned.2 with
              | Option.none => Option.none
              | some (eds, cs7) =>
                let k := digitsToNat eds
                if esigned.1 then some (base / ((10 : Rat) ^ k), cs7)
                else some (base * ((10 : Rat) ^ k), cs7)
            else some (base, cs5)
          | [] => some (base, cs5)
        match withExp with
        | Option.none => Option.none
        | some (q, cs8) => if signed.1 then some (-q, cs8) else some (q, cs8)

/-- Insertion into a Python dict: replaces the value of an existing key in
place, otherwise appends (insertion order preserved). -/
def insertKV (kvs : List (Str × Json)) (k : Str) (v : Json) : List (Str × Json) :=
  match kvs with
  | [] => [(k, v)]
  | (k', v') :: rest => if k' == k then (k', v) :: rest else (k', v') :: insertKV rest k v

mutual

/-- A JSON value (recursive descent; the fuel only bounds nesting and is
chosen large enough at the top level never to run out). -/
def parseVal : Nat → Str → Option (Json × Str)
  | 0, _ => Option.none
  | fuel + 1, cs =>
    let cs := skipWs cs
    match cs with
    | [] => Option.none
    | c :: rest =>
      if c = 'n' then
        match rest with
        | 'u' :: 'l' :: 'l' :: r => some (Json.null, r)
        | _ => Option.none
      else if c = 't' then
        match rest with
        | 'r' :: 'u' :: 'e' :: r => some (Json.bool true, r)
        | _ => Option.none
      else if c = 'f' then
        match rest with
        | 'a' :: 'l' :: 's' :: 'e' :: r => some (Json.bool false, r)
        | _ => Option.none
      else if c = quoteChar then
        (parseStringBody fuel rest).map (fun p => (Json.str p.1, p.2))
      else if c = '[' then
        match skipWs rest with
        | ']' :: r => some (Json.arr [], r)
        | r => (parseArrayTail fuel r).map (fun p => (Json.arr p.1, p.2))
      else if c = lbraceChar then
        match skipWs rest with
        | r =>
          if startsWith r [rbraceChar] then some (Json.obj [], r.drop 1)
          else
            (parseObjTail fuel r).map
              (fun p => (Json.obj (p.1.foldl (fun acc kv => insertKV acc kv.1 kv.2) []), p.2))
      else
        (parseNumber cs).map (fun p => (Json.num p.1, p.2))

/-- Elements of a JSON array after the opening bracket (nonempty case). -/
def parseArrayTail : Nat → Str → Option (List Json × Str)
  | 0, _ => Option.none
  | fuel + 1, cs =>
    match parseVal fuel cs with
    | Option.none => Option.none
    | some (v, cs1) =>
      match skipWs cs1 with
      | ']' :: r => some ([v], r)
      | ',' :: r => (parseArrayTail fuel r).map (fun p => (v :: p.1, p.2))
      | _ => Option.none

/-- Members of a JSON object after the opening brace (nonempty case),
in source order. -/
def parseObjTail : Nat → Str → Option (List (Str × Json) × Str)
  | 0, _ => Option.none
  | fuel + 1, cs =>
    match skipWs cs with
    | k :: cs1 =>
      if k = quoteChar then
        match parseStringBody fuel cs1 with
        | Option.none => Option.none
        | some (key, cs2) =>
          match skipWs cs2 with
          | ':' :: cs3 =>
            match parseVal fuel cs3 with
            | Option.none => Option.none
            | some (v, cs4) =>
              match skipWs cs4 with
              | ',' :: r => (parseObjTail fuel r).map (fun p => ((key, v) :: p.1, p.2))
              | r =>
                if startsWith r [rbraceChar] then some ([(key, v)], r.drop 1)
                else Option.none
          | _ => Option.none
      else Option.none
    | [] => Option.none

end

/-- Python `json.loads`: parse one JSON document, allowing surrounding
whitespace and nothing else. -/
def parseJson (cs : Str) : Option Json :=
  match parseVal (2 * cs.length + 4) cs with
  | Option.none => Option.none
  | some (v, rest) => if (skipWs rest).isEmpty then some v else Option.none

/-- Embedded `Medicine` model (app/models/medical.py lines 68-73). -/
structure Medicine where
  id : Str
  name : Option Str
  quantity : Option Int
  timeOfIntake : Option Str
  beforeOrAfterMeals : Option Str
deriving DecidableEq

/-- Embedded `PrescriptionData` model (app/models/medical.py lines 75-102).
Timestamps are opaque strings. -/
structure PrescriptionData where
  id : Option Str
  userId : Option Str
  serialNo : Option Int
  patientName : Option Str
  age : Option Int
  weight : Option Rat
  height : Option Rat
  temperature : Option Rat
  hospitalName : Option Str
  doctorName : Option Str
  date : Option Str
  medicines : List Medicine
  reportImages : List Str
  createdAt : Option Str
  updatedAt : Option Str
deriving DecidableEq

/-- Lookup of a key in a parsed JSON object. -/
def jLookup : List (Str × Json) → String → Option Json
  | [], _ => Option.none
  | (k, v) :: rest, key => if k == key.data then some v else jLookup rest key

/-- Python `d.get(key)`: `None` for an absent key. -/
def jGet0 (kvs : List (Str × Json)) (key : String) : Json :=
  (jLookup kvs key).getD Json.null

/-- Pydantic v2 lax validation of an `Optional[str]` field. -/
def asOptStr : Json → Option (Option Str)
  | Json.null => some Option.none
  | Json.str s => some (some s)
  | _ => Option.none

/-- Pydantic v2 lax coercion of a digit string to an integer
(an optional sign followed by digits; surrounding whitespace not modelled). -/
def strToInt : Str → Option Int
  | [] => Option.none
  | '-' :: ds => if ds ≠ [] ∧ ds.all Char.isDigit then some (-(digitsToNat ds : Int)) else Option.none
  | ds => if ds.all Char.isDigit then some (digitsToNat ds : Int) else Option.none

/-- Pydantic v2 lax validation of an `Optional[int]` field: accepts null,
ints, integral floats and integer strings; rejects bools and the rest. -/
def asOptInt : Json → Option (Option Int)
  | Json.null => some Option.none
  | Json.num q => if q.den = 1 then some (some q.num) else Option.none
  | Json.str s => (strToInt s).map some
  | _ => Option.none

/-- Pydantic v2 lax coercion of a numeric string to a float (modelled via the
exact JSON number grammar). -/
def strToRat (s : Str) : Option Rat :=
  match parseNumber s with
  | some (q, []) => some q
  | _ => Option.none

/-- Pydantic v2 lax validation of an `Optional[float]` field. -/
def asOptNum : Json → Option (Option Rat)
  | Json.null => some Option.none
  | Json.num q => some (some q)
  | Json.str s => (strToRat s).map some
  | _ => Option.none

/-- Natural-number rendering used in the ordinal medicine identifiers. -/
def natRepr (n : Nat) : Str := (Nat.repr n).data

/-- One entry of the model's `medicines` list mapped to a `Medicine`
(image_processor.py lines 203-211): the entry must be a dict and its fields
must validate; the ordinal identifier is `med_{idx+1}` regardless of any
identifier in the entry. -/
def buildMedicine (e : Json) (idx : Nat) : Option Medicine :=
  match e with
  | Json.obj kvs =>
    (asOptStr (jGet0 kvs "name")).bind fun name =>
    (asOptInt (jGet0 kvs "quantity")).bind fun quantity =>
    (asOptStr (jGet0 kvs "timeOfIntake")).bind fun timeOfIntake =>
    (asOptStr (jGet0 kvs "beforeOrAfterMeals")).bind fun beforeOrAfterMeals =>
    some { id := ("med_").data ++ natRepr (idx + 1), name := name, quantity := quantity,
           timeOfIntake := timeOfIntake, beforeOrAfterMeals := beforeOrAfterMeals }
  | _ => Option.none

/-- The enumerated loop over the model's `medicines` list
(image_processor.py lines 202-211). -/
def buildMedicines : List Json → Nat → Option (List Medicine)
  | [], _ => some []
  | e :: rest, idx =>
    match buildMedicine e idx with
    | some m => (buildMedicines rest (idx + 1)).map (fun ms => m :: ms)
    | Option.none => Option.none

/-- Python iteration over the value found under `medicines`: lists yield their
elements; empty strings and empty dicts yield nothing; iterating a nonempty
string or dict yields non-dict entries whose `.get` raises, and iterating any
other value raises immediately — both modelled as failure. -/
def iterEntries : Json → Option (List Json)
  | Json.arr xs => some xs
  | Json.str s => if s.isEmpty then some [] else Option.none
  | Json.obj kvs => if kvs.isEmpty then some [] else Option.none
  | _ => Option.none

/-- Construction of the prescription record from parsed JSON
(image_processor.py lines 202-226).  `none` models any exception raised while
mapping (non-dict data, non-iterable medicines, pydantic validation), which
the enclosing `except` turns into the empty prescription. -/
def buildPrescription (j : Json) (image_filename : Str) : Option PrescriptionData :=
  match j with
  | Json.obj kvs =>
    (iterEntries ((jLookup kvs "medicines").getD (Json.arr []))).bind fun entries =>
    (buildMedicines entries 0).bind fun medicines =>
    (asOptStr (jGet0 kvs "patientName")).bind fun patientName =>
    (asOptInt (jGet0 kvs "age")).bind fun age =>
    (asOptNum (jGet0 kvs "weight")).bind fun weight =>
    (asOptNum (jGet0 kvs "height")).bind fun height =>
    (asOptNum (jGet0 kvs "temperature")).bind fun temperature =>
    (asOptStr (jGet0 kvs "hospitalName")).bind fun hospitalName =>
    (asOptStr (jGet0 kvs "doctorName")).bind fun doctorName =>
    (asOptStr (jGet0 kvs "date")).bind fun date =>
    some { id := Option.none, userId := Option.none, serialNo := Option.none,
           patientName := patientName, age := age, weight := weight, height := height,
           temperature := temperature, hospitalName := hospitalName, doctorName := doctorName,
           date := date, medicines := medicines, reportImages := [image_filename],
           createdAt := Option.none, updatedAt := Option.none }
  | _ => Option.none

/-- Embedded `_create_empty_prescription` (image_processor.py lines 238-250). -/
def create_empty_prescription (image_filename : Str) : PrescriptionData :=
  { id := Option.none, userId := Option.none, serialNo := Option.none,
    patientName := Option.none, age := Option.none, weight := Option.none,
    height := Option.none, temperature := Option.none, hospitalName := Option.none,
    doctorName := Option.none, date := Option.none, medicines := [],
    reportImages := [image_filename], createdAt := Option.none, updatedAt := Option.none }

/-- The normalization of one raw model response into a record: content
extraction, markdown cleanup, JSON parsing and mapping, with every failure
collapsed to the empty prescription (image_processor.py lines 136-236). -/
def extract_from_response (resp : RawResponse) (image_filename : Str) : PrescriptionData :=
  let extracted_text := extractText resp
  let cleaned := cleanupFences extracted_text
  match parseJson cleaned with
  | Option.none => create_empty_prescription image_filename
  | some data =>
    match buildPrescription data image_filename with
    | Option.none => create_empty_prescription image_filename
    | some p => p

/-- Embedded `extract_from_image` (image_processor.py lines 97-236): the external model
call is an oracle from the image bytes; a raised call (or any failure in the
surrounding `try`) yields the empty prescription. -/
def extract_from_image (model : Bytes → ModelOutcome) (image_bytes : Bytes)
    (image_filename : Str) : PrescriptionData :=
  match model image_bytes with
  | ModelOutcome.fail => create_empty_prescription image_filename
  | ModelOutcome.ok resp => extract_from_response resp image_filename

/-- The enumerated loop of `process_multiple_images`
(image_processor.py lines 253-259). -/
def processLoop (model : Bytes → ModelOutcome) : List (Bytes × Str) → Nat → List PrescriptionData
  | [], _ => []
  | (image_bytes, filename) :: rest, idx =>
    { extract_from_image model image_bytes filename with serialNo := some (idx : Int) }
      :: processLoop model rest (idx + 1)

/-- Embedded `process_multiple_images` (image_processor.py lines 253-259). -/
def process_multiple_images (model : Bytes → ModelOutcome)
    (images : List (Bytes × Str)) : List PrescriptionData :=
  processLoop model images 0

/-- Embedded `FileDetail` (app/models/medical.py lines 110-113). -/
structure FileDetail where
  url : Str
  fileId : Str
  name : Str
deriving DecidableEq

/-- Embedded `PrescriptionUploadRequest` (app/models/medical.py lines 115-117). -/
structure UploadRequest where
  prescriptionUrls : List Str
  fileDetails : List FileDetail
deriving DecidableEq

/-- Observable steps of one request, in execution order: the HTTP fetch of the
i-th image, the external-model call for the i-th image, and the normalization
of the i-th image into a record. -/
inductive RouteEvent where
  | fetch (idx : Nat)
  | modelCall (idx : Nat)
  | normalize (idx : Nat)
deriving DecidableEq

/-- Response of the route: an HTTP 400 with a detail message, or the success
envelope (message, count, data). -/
inductive RouteResult where
  | clientError (detail : Str)
  | success (message : Str) (count : Nat) (data : List PrescriptionData)
deriving DecidableEq

/-- Result of one request together with its event trace and the records
handed to the persistence gateway. -/
structure RouteOutcome where
  result : RouteResult
  events : List RouteEvent
  persisted : List PrescriptionData
deriving DecidableEq

/-- Detail of the empty-list rejection (medical.py line 24). -/
def noUrlsMsg : Str := ("No prescription URLs provided. Please upload at least one image.").data

/-- Detail of the extension rejection (medical.py line 35). -/
def invalidFileMsg (name : Str) : Str :=
  ("Invalid file type for ").data ++ name ++ (". Allowed types: jpg, jpeg, png, gif, webp").data

/-- Detail of the download rejection (medical.py line 54). -/
def downloadFailMsg (url : Str) : Str :=
  ("Failed to download image from URL: ").data ++ url

/-- Success message (medical.py line 78). -/
def successMsg (n : Nat) : Str :=
  ("Successfully processed ").data ++ natRepr n ++ (" prescription image(s)").data

/-- The allow-list of file extensions (medical.py line 27). -/
def allowedExtensions : List Str :=
  [(".jpg").data, (".jpeg").data, (".png").data, (".gif").data, (".webp").data]

/-- Extension extraction `'.' + file_detail.name.lower().split('.')[-1]` (medical.py line 31). -/
def extOf (name : Str) : Str :=
  '.' :: (splitOnDot (lowerStr name)).getLastD []

/-- Whether a file name fails the extension allow-list. -/
def badExt (fd : FileDetail) : Bool :=
  !(allowedExtensions.contains (extOf fd.name))

/-- Request validation (medical.py lines 21-36): the rejection detail, if any. -/
def validateRequest (req : UploadRequest) : Option Str :=
  if req.prescriptionUrls.isEmpty then some noUrlsMsg
  else (req.fileDetails.find? badExt).map (fun fd => invalidFileMsg fd.name)

/-- The sequential download loop (medical.py lines 42-55): every attempted
fetch is recorded; the first failure aborts with the download rejection. -/
def downloadLoop (fetch : Str → Option Bytes) :
    List FileDetail → Nat → Except Str (List (Bytes × Str)) × List RouteEvent
  | [], _ => (Except.ok [], [])
  | fd :: rest, idx =>
    match fetch fd.url with
    | some image_bytes =>
      let r := downloadLoop fetch rest (idx + 1)
      (r.1.map (fun l => (image_bytes, fd.name) :: l), RouteEvent.fetch idx :: r.2)
    | Option.none => (Except.error (downloadFailMsg fd.url), [RouteEvent.fetch idx])

/-- The per-image steps of the processing loop, in order: for each image the
model call then the normalization (image_processor.py lines 253-259). -/
def processEvents (n : Nat) : List RouteEvent :=
  (List.range n).flatMap (fun i => [RouteEvent.modelCall i, RouteEvent.normalize i])

/-- Embedded `extract_prescription_data` (medical.py lines 16-90): validation, the
download loop, the synchronous batch processing and the per-record persistence,
with the fetch and model collaborators and the persistence gateway as oracles.
`persist` models `PrescriptionQueries.create_prescription` plus re-validation;
`persisted` records every document handed to it. -/
def extract_prescription_data (fetch : Str → Option Bytes) (model : Bytes → ModelOutcome)
    (persist : PrescriptionData → PrescriptionData) (req : UploadRequest) : RouteOutcome :=
  match validateRequest req with
  | some detail => { result := RouteResult.clientError detail, events := [], persisted := [] }
  | Option.none =>
    match downloadLoop fetch req.fileDetails 0 with
    | (Except.error detail, evs) =>
      { result := RouteResult.clientError detail, events := evs, persisted := [] }
    | (Except.ok image_data, evs) =>
      let prescriptions := process_multiple_images model image_data
      let saved := prescriptions.map persist
      { result := RouteResult.success (successMsg prescriptions.length) saved.length saved,
        events := evs ++ processEvents image_data.length,
        persisted := prescriptions }

/-! ### Helper lemmas about the embedded text utilities -/

theorem startsWith_nilpat (l : Str) : startsWith l [] = true := by
  cases l <;> rfl

theorem startsWith_append_self (p x : Str) : startsWith (p ++ x) p = true := by
  induction p with
  | nil => simp [startsWith_nilpat]
  | cons c ps ih => simp [startsWith, ih]

theorem startsWith_append_pre (p x y : Str) :
    startsWith (p ++ x) (p ++ y) = startsWith x y := by
  induction p with
  | nil => rfl
  | cons c ps ih => simp [startsWith, ih]

theorem containsSub_nilpat (l : Str) : containsSub l [] = true := by
  induction l with
  | nil => rfl
  | cons c t ih => simp [containsSub, startsWith_nilpat]

theorem containsSub_append_mid (a x b : Str) : containsSub (a ++ x ++ b) x = true := by
  induction a with
  | nil =>
    cases x with
    | nil => simp [containsSub_nilpat]
    | cons c xs =>
      have h := startsWith_append_self (c :: xs) b
      simp only [List.cons_append] at h
      simp [containsSub, h]
  | cons c as ih =>
    simp only [List.cons_append, containsSub, Bool.or_eq_true]
    right
    simpa using ih

/-! ### Claim C1 -/

/-- Claim C1: the normalizer is total by construction (`extract_from_image` is a
function into `PrescriptionData`, never raising); whenever the extraction
raises or the model call fails (`ModelOutcome.fail`) or the extracted text is
unparsable as JSON, the returned record is the empty prescription: no
medicines, every scalar domain field null, and `reportImages` equal to the
one-element list containing the source filename. -/
theorem C1_empty_record_on_failure (model : Bytes → ModelOutcome) (image_bytes : Bytes)
    (image_filename : Str)
    (h : model image_bytes = ModelOutcome.fail ∨
      ∃ r, model image_bytes = ModelOutcome.ok r ∧
        parseJson (cleanupFences (extractText r)) = Option.none) :
    extract_from_image model image_bytes image_filename =
      create_empty_prescription image_filename ∧
    (extract_from_image model image_bytes image_filename).medicines = [] ∧
    (extract_from_image model image_bytes image_filename).patientName = Option.none ∧
    (extract_from_image model image_bytes image_filename).age = Option.none ∧
    (extract_from_image model image_bytes image_filename).weight = Option.none ∧
    (extract_from_image model image_bytes image_filename).height = Option.none ∧
    (extract_from_image model image_bytes image_filename).temperature = Option.none ∧
    (extract_from_image model image_bytes image_filename).hospitalName = Option.none ∧
    (extract_from_image model image_bytes image_filename).doctorName = Option.none ∧
    (extract_from_image model image_bytes image_filename).date = Option.none ∧
    (extract_from_image model image_bytes image_filename).reportImages = [image_filename] := by
  have hmain : extract_from_image model image_bytes image_filename =
      create_empty_prescription image_filename := by
    rcases h with h | ⟨r, hr, hp⟩
    · simp [extract_from_image, h]
    · simp [extract_from_image, hr, extract_from_response, hp]
  rw [hmain]
  exact ⟨rfl, rfl, rfl, rfl, rfl, rfl, rfl, rfl, rfl, rfl, rfl⟩

/-- Witness for C1 at a concrete failing model call. -/
theorem C1_empty_record_on_failure_witness :
    extract_from_image (fun _ => ModelOutcome.fail) [] (("scan.jpg").data) =
      create_empty_prescription (("scan.jpg").data) ∧
    (extract_from_image (fun _ => ModelOutcome.fail) [] (("scan.jpg").data)).medicines = [] ∧
    (extract_from_image (fun _ => ModelOutcome.fail) [] (("scan.jpg").data)).patientName = Option.none ∧
    (extract_from_image (fun _ => ModelOutcome.fail) [] (("scan.jpg").data)).age = Option.none ∧
    (extract_from_image (fun _ => ModelOutcome.fail) [] (("scan.jpg").data)).weight = Option.none ∧
    (extract_from_image (fun _ => ModelOutcome.fail) [] (("scan.jpg").data)).height = Option.none ∧
    (extract_from_image (fun _ => ModelOutcome.fail) [] (("scan.jpg").data)).temperature = Option.none ∧
    (extract_from_image (fun _ => ModelOutcome.fail) [] (("scan.jpg").data)).hospitalName = Option.none ∧
    (extract_from_image (fun _ => ModelOutcome.fail) [] (("scan.jpg").data)).doctorName = Option.none ∧
    (extract_from_image (fun _ => ModelOutcome.fail) [] (("scan.jpg").data)).date = Option.none ∧
    (extract_from_image (fun _ => ModelOutcome.fail) [] (("scan.jpg").data)).reportImages =
      [("scan.jpg").data] :=
  C1_empty_record_on_failure (fun _ => ModelOutcome.fail) [] (("scan.jpg").data) (Or.inl rfl)

/-! ### Claim C2 -/

theorem processLoop_length (model : Bytes → ModelOutcome) (l : List (Bytes × Str)) :
    ∀ idx : Nat, (processLoop model l idx).length = l.length := by
  induction l with
  | nil => intro idx; simp [processLoop]
  | cons hd tl ih =>
    intro idx
    obtain ⟨b, f⟩ := hd
    simp [processLoop, ih]

theorem processLoop_serials (model : Bytes → ModelOutcome) (l : List (Bytes × Str)) :
    ∀ idx : Nat, (processLoop model l idx).map PrescriptionData.serialNo =
      (List.range' idx l.length).map (fun i => (some (i : Int) : Option Int)) := by
  induction l with
  | nil => intro idx; simp [processLoop]
  | cons hd tl ih =>
    intro idx
    obtain ⟨b, f⟩ := hd
    simp [processLoop, List.range'_succ, ih]

/-- Claim C2: for every input list, `process_multiple_images` returns a list of
the same length in the same order whose i-th record carries `serialNo = i`
(0-based, overwriting whatever the normalizer set), so the serial numbers are
exactly `0..n-1` in input order. -/
theorem C2_batch_length_and_serials (model : Bytes → ModelOutcome)
    (images : List (Bytes × Str)) :
    (process_multiple_images model images).length = images.length ∧
    (process_multiple_images model images).map PrescriptionData.serialNo =
      (List.range images.length).map (fun i => (some (i : Int) : Option Int)) := by
  have key := processLoop_serials model images 0
  constructor
  · exact processLoop_length model images 0
  · simpa [process_multiple_images, List.range_eq_range'] using key

/-! ### Claim C4 -/

theorem buildMedicine_id (e : Json) (idx : Nat) (m : Medicine)
    (h : buildMedicine e idx = some m) : m.id = ("med_").data ++ natRepr (idx + 1) := by
  cases e with
  | obj kvs =>
    simp only [buildMedicine, Option.bind_eq_some] at h
    obtain ⟨a, _, b, _, c, _, d, _, hm⟩ := h
    simp only [Option.some.injEq] at hm
    rw [← hm]
  | null => simp [buildMedicine] at h
  | bool b => simp [buildMedicine] at h
  | num q => simp [buildMedicine] at h
  | str s => simp [buildMedicine] at h
  | arr xs => simp [buildMedicine] at h

theorem buildMedicines_spec (entries : List Json) :
    ∀ (idx : Nat) (ms : List Medicine), buildMedicines entries idx = some ms →
      ms.length = entries.length ∧
      ms.map Medicine.id =
        (List.range' idx entries.length).map (fun i => ("med_").data ++ natRepr (i + 1)) := by
  induction entries with
  | nil =>
    intro idx ms h
    simp only [buildMedicines, Option.some.injEq] at h
    subst h
    simp
  | cons e rest ih =>
    intro idx ms h
    simp only [buildMedicines] at h
    cases hm : buildMedicine e idx with
    | none => rw [hm] at h; simp at h
    | some m =>
      rw [hm] at h
      simp only [Option.map_eq_some'] at h
      obtain ⟨ms', hms', hcons⟩ := h
      obtain ⟨hl, hids⟩ := ih (idx + 1) ms' hms'
      subst hcons
      refine ⟨by simp [hl], ?_⟩
      simp [List.range'_succ, hids, buildMedicine_id e idx m hm]

/-- Claim C4: whenever the mapping of a successfully parsed model output
produces a record, its medicine line items carry the ordinal identifiers
`med_1, med_2, ...` in list order, regardless of any `id` field present in the
raw entries (the builder never reads one). -/
theorem C4_medicine_ordinal_ids (j : Json) (image_filename : Str) (p : PrescriptionData)
    (h : buildPrescription j image_filename = some p) :
    p.medicines.map Medicine.id =
      (List.range p.medicines.length).map (fun i => ("med_").data ++ natRepr (i + 1)) := by
  cases j with
  | obj kvs =>
    simp only [buildPrescription, Option.bind_eq_some] at h
    obtain ⟨entries, hent, meds, hmeds, a1, h1, a2, h2, a3, h3, a4, h4, a5, h5, a6, h6,
      a7, h7, a8, h8, hp⟩ := h
    simp only [Option.some.injEq] at hp
    obtain ⟨hl, hids⟩ := buildMedicines_spec entries 0 meds hmeds
    rw [← hp]
    simp only []
    rw [List.range_eq_range']
    simpa [hl] using hids
  | null => simp [buildPrescription] at h
  | bool b => simp [buildPrescription] at h
  | num q => simp [buildPrescription] at h
  | str s => simp [buildPrescription] at h
  | arr xs => simp [buildPrescription] at h

/-- Concrete parsed model output for the C4 witness: two medicine entries, the
first carrying a hallucinated identifier. -/
def c4Input : Json :=
  Json.obj [(("medicines").data,
    Json.arr [Json.obj [(("id").data, Json.str ("zzz").data),
                        (("name").data, Json.str ("Para").data)],
              Json.obj []])]

/-- The record produced from `c4Input`. -/
def c4Record : PrescriptionData :=
  { id := Option.none, userId := Option.none, serialNo := Option.none,
    patientName := Option.none, age := Option.none, weight := Option.none,
    height := Option.none, temperature := Option.none, hospitalName := Option.none,
    doctorName := Option.none, date := Option.none,
    medicines := [{ id := ("med_1").data, name := some (("Para").data),
                    quantity := Option.none, timeOfIntake := Option.none,
                    beforeOrAfterMeals := Option.none },
                  { id := ("med_2").data, name := Option.none, quantity := Option.none,
                    timeOfIntake := Option.none, beforeOrAfterMeals := Option.none }],
    reportImages := [("f.jpg").data], createdAt := Option.none, updatedAt := Option.none }

/-- Witness for C4 on a concrete two-entry medicines list. -/
theorem C4_medicine_ordinal_ids_witness :
    c4Record.medicines.map Medicine.id =
      (List.range c4Record.medicines.length).map (fun i => ("med_").data ++ natRepr (i + 1)) :=
  C4_medicine_ordinal_ids c4Input (("f.jpg").data) c4Record (by decide)

/-! ### Claim C10 -/

/-- Claim C10: when the extracted text parses as a JSON object, missing keys
are not a failure: whenever the builder succeeds, every absent top-level
scalar key maps to null and an absent or empty `medicines` key maps to an
empty medicines list; in particular the all-keys-absent object builds exactly
the empty prescription, and a record may mix non-null scalars with an empty
medicines list. -/
theorem C10_missing_keys_map_to_null (image_filename : Str) (kvs : List (Str × Json))
    (p : PrescriptionData) (h : buildPrescription (Json.obj kvs) image_filename = some p) :
    (jLookup kvs "patientName" = Option.none → p.patientName = Option.none) ∧
    (jLookup kvs "age" = Option.none → p.age = Option.none) ∧
    (jLookup kvs "weight" = Option.none → p.weight = Option.none) ∧
    (jLookup kvs "height" = Option.none → p.height = Option.none) ∧
    (jLookup kvs "temperature" = Option.none → p.temperature = Option.none) ∧
    (jLookup kvs "hospitalName" = Option.none → p.hospitalName = Option.none) ∧
    (jLookup kvs "doctorName" = Option.none → p.doctorName = Option.none) ∧
    (jLookup kvs "date" = Option.none → p.date = Option.none) ∧
    ((jLookup kvs "medicines" = Option.none ∨ jLookup kvs "medicines" = some (Json.arr [])) →
      p.medicines = []) ∧
    buildPrescription (Json.obj []) image_filename =
      some (create_empty_prescription image_filename) := by
  simp only [buildPrescription, Option.bind_eq_some] at h
  obtain ⟨entries, hent, meds, hmeds, a1, h1, a2, h2, a3, h3, a4, h4, a5, h5, a6, h6,
    a7, h7, a8, h8, hp⟩ := h
  simp only [Option.some.injEq] at hp
  subst hp
  refine ⟨?_, ?_, ?_, ?_, ?_, ?_, ?_, ?_, ?_, rfl⟩
  · intro hl
    rw [jGet0, hl] at h1
    simp only [Option.getD, asOptStr, Option.some.injEq] at h1
    simp [← h1]
  · intro hl
    rw [jGet0, hl] at h2
    simp only [Option.getD, asOptInt, Option.some.injEq] at h2
    simp [← h2]
  · intro hl
    rw [jGet0, hl] at h3
    simp only [Option.getD, asOptNum, Option.some.injEq] at h3
    simp [← h3]
  · intro hl
    rw [jGet0, hl] at h4
    simp only [Option.getD, asOptNum, Option.some.injEq] at h4
    simp [← h4]
  · intro hl
    rw [jGet0, hl] at h5
    simp only [Option.getD, asOptNum, Option.some.injEq] at h5
    simp [← h5]
  · intro hl
    rw [jGet0, hl] at h6
    simp only [Option.getD, asOptStr, Option.some.injEq] at h6
    simp [← h6]
  · intro hl
    rw [jGet0, hl] at h7
    simp only [Option.getD, asOptStr, Option.some.injEq] at h7
    simp [← h7]
  · intro hl
    rw [jGet0, hl] at h8
    simp only [Option.getD, asOptStr, Option.some.injEq] at h8
    simp [← h8]
  · intro hml
    have hget : (jLookup kvs "medicines").getD (Json.arr []) = Json.arr [] := by
      rcases hml with hml | hml <;> simp [hml]
    rw [hget] at hent
    simp only [iterEntries, Option.some.injEq] at hent
    subst hent
    simp only [buildMedicines, Option.some.injEq] at hmeds
    simp [← hmeds]

/-- Concrete parsed object for the C10 witness: only `patientName` present. -/
def c10Kvs : List (Str × Json) := [(("patientName").data, Json.str ("A").data)]

/-- The record produced from `c10Kvs`: a non-null scalar together with an
empty medicines list. -/
def c10Record : PrescriptionData :=
  { id := Option.none, userId := Option.none, serialNo := Option.none,
    patientName := some (("A").data), age := Option.none, weight := Option.none,
    height := Option.none, temperature := Option.none, hospitalName := Option.none,
    doctorName := Option.none, date := Option.none, medicines := [],
    reportImages := [("g.jpg").data], createdAt := Option.none, updatedAt := Option.none }

/-- Witness for C10 on an object with a single present key. -/
theorem C10_missing_keys_map_to_null_witness :
    (jLookup c10Kvs "patientName" = Option.none → c10Record.patientName = Option.none) ∧
    (jLookup c10Kvs "age" = Option.none → c10Record.age = Option.none) ∧
    (jLookup c10Kvs "weight" = Option.none → c10Record.weight = Option.none) ∧
    (jLookup c10Kvs "height" = Option.none → c10Record.height = Option.none) ∧
    (jLookup c10Kvs "temperature" = Option.none → c10Record.temperature = Option.none) ∧
    (jLookup c10Kvs "hospitalName" = Option.none → c10Record.hospitalName = Option.none) ∧
    (jLookup c10Kvs "doctorName" = Option.none → c10Record.doctorName = Option.none) ∧
    (jLookup c10Kvs "date" = Option.none → c10Record.date = Option.none) ∧
    ((jLookup c10Kvs "medicines" = Option.none ∨
      jLookup c10Kvs "medicines" = some (Json.arr [])) → c10Record.medicines = []) ∧
    buildPrescription (Json.obj []) (("g.jpg").data) =
      some (create_empty_prescription (("g.jpg").data)) :=
  C10_missing_keys_map_to_null (("g.jpg").data) c10Kvs c10Record (by decide)

/-! ### Claim C8 -/

/-- A model response whose message content is the plain string `j`. -/
def plainStrResponse (j : Str) : RawResponse :=
  RawResponse.obj [RawChoice.obj (PyVal.str j)]

/-- A model response whose message content arrives as the one-part list
shape `[ \x7b "text": j \x7d ]`. -/
def listPartsResponse (j : Str) : RawResponse :=
  RawResponse.obj [RawChoice.obj (PyVal.list [PyVal.dict [(("text").data, PyVal.str j)]])]

theorem intercalate_single (s x : Str) : List.intercalate s [x] = x := by
  simp [List.intercalate, List.intersperse]

/-- Claim C8: for every text `j`, a model response whose content arrives as
the list-of-parts shape `[ \x7b "text": j \x7d ]` normalizes to the same
record as a response whose content is the plain string `j`. -/
theorem C8_list_parts_equals_plain_string (j : Str) (image_bytes : Bytes)
    (image_filename : Str) :
    extract_from_image (fun _ => ModelOutcome.ok (listPartsResponse j)) image_bytes
      image_filename =
    extract_from_image (fun _ => ModelOutcome.ok (plainStrResponse j)) image_bytes
      image_filename := by
  have htext : extractText (listPartsResponse j) = extractText (plainStrResponse j) := by
    by_cases hj : j = []
    · subst hj; rfl
    · have hne : j.isEmpty = false := List.isEmpty_eq_false.mpr hj
      simp [extractText, listPartsResponse, plainStrResponse, choiceOf, contentOf,
        textFromContent, partText, PyVal.get, dictGet, pyOr, PyVal.truthy, pyStr, hne,
        intercalate_single]
  simp only [extract_from_image]
  simp only [extract_from_response, htext]

/-! ### Claim C5 -/

/-- A request with no URLs but with a disallowed file extension among its
file details. -/
def c5BadRequest : UploadRequest :=
  { prescriptionUrls := [],
    fileDetails := [{ url := ("http://x/a.txt").data, fileId := ("f1").data,
                      name := ("a.txt").data }] }

/-- Counterexample to C5 as stated: this request contains a file whose
extension is outside the allow-list, and it is rejected before any fetch with
nothing persisted, but the client error is the missing-URLs message, which
does not name the offending file. -/
theorem C5_counterexample :
    badExt { url := ("http://x/a.txt").data, fileId := ("f1").data,
             name := ("a.txt").data } = true ∧
    c5BadRequest.fileDetails = [{ url := ("http://x/a.txt").data, fileId := ("f1").data,
                                  name := ("a.txt").data }] ∧
    (extract_prescription_data (fun _ => some []) (fun _ => ModelOutcome.fail) id
        c5BadRequest).result = RouteResult.clientError noUrlsMsg ∧
    (extract_prescription_data (fun _ => some []) (fun _ => ModelOutcome.fail) id
        c5BadRequest).events = [] ∧
    (extract_prescription_data (fun _ => some []) (fun _ => ModelOutcome.fail) id
        c5BadRequest).persisted = [] ∧
    containsSub noUrlsMsg (("a.txt").data) = false := by decide

/-- Claim C5 (amended): for every upload request whose `prescriptionUrls` is
non-empty and in which some file's extension is outside the allow-list, the
whole request is rejected with a client error naming the first offending file,
before any image fetch occurs, and nothing is produced or persisted.  (When
`prescriptionUrls` is empty the request is also rejected before any fetch, but
with the missing-URLs message, which does not name the file.) -/
theorem C5_amended_reject_on_bad_extension (fetch : Str → Option Bytes)
    (model : Bytes → ModelOutcome) (persist : PrescriptionData → PrescriptionData)
    (req : UploadRequest) (fd : FileDetail)
    (h1 : req.prescriptionUrls ≠ [])
    (h2 : req.fileDetails.find? badExt = some fd) :
    (extract_prescription_data fetch model persist req).result =
      RouteResult.clientError (invalidFileMsg fd.name) ∧
    containsSub (invalidFileMsg fd.name) fd.name = true ∧
    (extract_prescription_data fetch model persist req).events = [] ∧
    (extract_prescription_data fetch model persist req).persisted = [] ∧
    fd ∈ req.fileDetails ∧ badExt fd = true := by
  have hne : req.prescriptionUrls.isEmpty = false := List.isEmpty_eq_false.mpr h1
  have hv : validateRequest req = some (invalidFileMsg fd.name) := by
    simp [validateRequest, hne, h2]
  have hcontains : containsSub (invalidFileMsg fd.name) fd.name = true := by
    have h := containsSub_append_mid (("Invalid file type for ").data) fd.name
      ((". Allowed types: jpg, jpeg, png, gif, webp").data)
    simpa [invalidFileMsg] using h
  refine ⟨?_, hcontains, ?_, ?_, List.mem_of_find?_eq_some h2, List.find?_some h2⟩ <;>
    simp [extract_prescription_data, hv]

/-- Concrete request for the C5 witness: a valid entry followed by a `.txt`
entry. -/
def c5Request : UploadRequest :=
  { prescriptionUrls := [("http://img/a").data],
    fileDetails := [{ url := ("http://img/ok.png").data, fileId := ("f0").data,
                      name := ("ok.png").data },
                    { url := ("http://img/b").data, fileId := ("f1").data,
                      name := ("b.txt").data }] }

/-- The first (and only) offending entry of `c5Request`. -/
def c5Bad : FileDetail :=
  { url := ("http://img/b").data, fileId := ("f1").data, name := ("b.txt").data }

/-- Witness for the amended C5 on a concrete mixed request. -/
theorem C5_amended_witness :
    (extract_prescription_data (fun _ => some []) (fun _ => ModelOutcome.fail) id
        c5Request).result = RouteResult.clientError (invalidFileMsg c5Bad.name) ∧
    containsSub (invalidFileMsg c5Bad.name) c5Bad.name = true ∧
    (extract_prescription_data (fun _ => some []) (fun _ => ModelOutcome.fail) id
        c5Request).events = [] ∧
    (extract_prescription_data (fun _ => some []) (fun _ => ModelOutcome.fail) id
        c5Request).persisted = [] ∧
    c5Bad ∈ c5Request.fileDetails ∧ badExt c5Bad = true :=
  C5_amended_reject_on_bad_extension (fun _ => some []) (fun _ => ModelOutcome.fail) id
    c5Request c5Bad (by decide) (by decide)

/-! ### Claim C6 -/

theorem downloadLoop_error_of_find (fetch : Str → Option Bytes) (fd : FileDetail) :
    ∀ (fds : List FileDetail) (idx : Nat),
      fds.find? (fun x => (fetch x.url).isNone) = some fd →
      (downloadLoop fetch fds idx).1 = Except.error (downloadFailMsg fd.url) := by
  intro fds
  induction fds with
  | nil => intro idx h; simp at h
  | cons hd tl ih =>
    intro idx h
    rw [List.find?_cons] at h
    cases hf : fetch hd.url with
    | none =>
      rw [hf] at h
      simp only [Option.isNone_none, if_true, Option.some.injEq] at h
      subst h
      simp [downloadLoop, hf]
    | some b =>
      rw [hf] at h
      simp only [Option.isNone_some, Bool.false_eq_true, if_false] at h
      have herr := ih (idx + 1) h
      cases hdl : downloadLoop fetch tl (idx + 1) with
      | mk e evs =>
        rw [hdl] at herr
        simp only at herr
        subst herr
        simp [downloadLoop, hf, hdl, Except.map]

/-- Claim C6: if validation passed and fetching some image of the batch fails,
the whole request fails with a client error naming the first offending URL and
the persistence gateway is never invoked — unlike extraction failure, which is
tolerated per image (claims C1/C2). -/
theorem C6_fetch_failure_aborts_request (fetch : Str → Option Bytes)
    (model : Bytes → ModelOutcome) (persist : PrescriptionData → PrescriptionData)
    (req : UploadRequest) (fd : FileDetail)
    (h1 : validateRequest req = Option.none)
    (h2 : req.fileDetails.find? (fun x => (fetch x.url).isNone) = some fd) :
    (extract_prescription_data fetch model persist req).result =
      RouteResult.clientError (downloadFailMsg fd.url) ∧
    containsSub (downloadFailMsg fd.url) fd.url = true ∧
    (extract_prescription_data fetch model persist req).persisted = [] := by
  have herr := downloadLoop_error_of_find fetch fd req.fileDetails 0 h2
  have hcontains : containsSub (downloadFailMsg fd.url) fd.url = true := by
    have h := containsSub_append_mid (("Failed to download image from URL: ").data) fd.url []
    simpa [downloadFailMsg] using h
  rcases hdl : downloadLoop fetch req.fileDetails 0 with ⟨e, evs⟩
  rw [hdl] at herr
  simp only at herr
  subst herr
  refine ⟨?_, hcontains, ?_⟩ <;> simp [extract_prescription_data, h1, hdl]

/-- Concrete request for the C6 witness. -/
def c6Request : UploadRequest :=
  { prescriptionUrls := [("http://img/u").data],
    fileDetails := [{ url := ("http://img/1").data, fileId := ("f1").data,
                      name := ("a.jpg").data },
                    { url := ("http://img/2").data, fileId := ("f2").data,
                      name := ("b.jpg").data }] }

/-- Fetch oracle failing exactly on the second URL of `c6Request`. -/
def c6Fetch : Str → Option Bytes :=
  fun u => if u == ("http://img/2").data then Option.none else some []

/-- The file detail whose fetch fails in `c6Request`. -/
def c6Bad : FileDetail :=
  { url := ("http://img/2").data, fileId := ("f2").data, name := ("b.jpg").data }

/-- Witness for C6 on a concrete two-image request whose second fetch fails. -/
theorem C6_fetch_failure_witness :
    (extract_prescription_data c6Fetch (fun _ => ModelOutcome.fail) id c6Request).result =
      RouteResult.clientError (downloadFailMsg c6Bad.url) ∧
    containsSub (downloadFailMsg c6Bad.url) c6Bad.url = true ∧
    (extract_prescription_data c6Fetch (fun _ => ModelOutcome.fail) id c6Request).persisted
      = [] :=
  C6_fetch_failure_aborts_request c6Fetch (fun _ => ModelOutcome.fail) id c6Request c6Bad
    (by decide) (by decide)

/-! ### Claim C9 -/

/-- Claim C9 (implicit): request validation raises a client error exactly when
`prescriptionUrls` is empty or some file detail has a disallowed extension;
the two lists are never compared for length, so a request with non-empty
`prescriptionUrls` and empty `fileDetails` passes validation, fetches and
processes nothing, and returns a success response with count 0 and no data. -/
theorem C9_validation_iff_and_empty_fileDetails (req : UploadRequest) :
    ((validateRequest req).isSome ↔
      (req.prescriptionUrls = [] ∨ ∃ fd ∈ req.fileDetails, badExt fd = true)) ∧
    (req.prescriptionUrls ≠ [] → req.fileDetails = [] →
      ∀ (fetch : Str → Option Bytes) (model : Bytes → ModelOutcome)
        (persist : PrescriptionData → PrescriptionData),
        extract_prescription_data fetch model persist req =
          { result := RouteResult.success (successMsg 0) 0 [], events := [],
            persisted := [] }) := by
  constructor
  · cases hemp : req.prescriptionUrls.isEmpty with
    | true => simp [validateRequest, hemp, List.isEmpty_iff.mp hemp]
    | false =>
      have hne : req.prescriptionUrls ≠ [] := List.isEmpty_eq_false.mp hemp
      simp [validateRequest, hemp, hne, List.find?_isSome]
  · intro h1 h2 fetch model persist
    obtain ⟨urls, fds⟩ := req
    simp only at h1 h2
    subst h2
    have hne : urls.isEmpty = false := List.isEmpty_eq_false.mpr h1
    simp [extract_prescription_data, validateRequest, hne, downloadLoop,
      process_multiple_images, processLoop, processEvents, successMsg]

/-- Concrete request for the C9 witness: one URL, no file details. -/
def c9Request : UploadRequest :=
  { prescriptionUrls := [("http://img/u").data], fileDetails := [] }

/-- Witness for C9: the empty-fileDetails request yields success, count 0,
no data, no fetches and nothing persisted. -/
theorem C9_witness :
    extract_prescription_data (fun _ => Option.none) (fun _ => ModelOutcome.fail) id
        c9Request =
      { result := RouteResult.success (successMsg 0) 0 [], events := [],
        persisted := [] } :=
  (C9_validation_iff_and_empty_fileDetails c9Request).2 (by decide) rfl
    (fun _ => Option.none) (fun _ => ModelOutcome.fail) id

/-! ### Claim C7 -/

/-- The per-image sequential trace asserted by the claim: fetch, model call
and normalization of image `i` all complete before any step of image `i+1`. -/
def perImageTrace (n : Nat) : List RouteEvent :=
  (List.range n).flatMap
    (fun i => [RouteEvent.fetch i, RouteEvent.modelCall i, RouteEvent.normalize i])

/-- A two-image request with fetchable URLs. -/
def c7Request : UploadRequest :=
  { prescriptionUrls := [("http://img/u").data],
    fileDetails := [{ url := ("u1").data, fileId := ("f1").data, name := ("a.jpg").data },
                    { url := ("u2").data, fileId := ("f2").data, name := ("b.jpg").data }] }

/-- Counterexample to C7 as stated: on a two-image request the route fetches
both images before the first model call — the trace begins `fetch 0, fetch 1`,
so a step of image 1 happens before image 0's model call, and the trace is not
the strictly per-image sequential one. -/
theorem C7_counterexample :
    (extract_prescription_data (fun _ => some []) (fun _ => ModelOutcome.fail) id
        c7Request).events =
      [RouteEvent.fetch 0, RouteEvent.fetch 1, RouteEvent.modelCall 0,
       RouteEvent.normalize 0, RouteEvent.modelCall 1, RouteEvent.normalize 1] ∧
    (extract_prescription_data (fun _ => some []) (fun _ => ModelOutcome.fail) id
        c7Request).events ≠ perImageTrace 2 := by decide

theorem downloadLoop_ok_of_all_some (fetch : Str → Option Bytes) :
    ∀ (fds : List FileDetail) (idx : Nat),
      (∀ fd ∈ fds, (fetch fd.url).isSome) →
      ∃ data, downloadLoop fetch fds idx =
        (Except.ok data, (List.range' idx fds.length).map RouteEvent.fetch) ∧
        data.length = fds.length := by
  intro fds
  induction fds with
  | nil => intro idx _; exact ⟨[], by simp [downloadLoop], rfl⟩
  | cons hd tl ih =>
    intro idx h
    have hhd := h hd (List.mem_cons_self hd tl)
    cases hb : fetch hd.url with
    | none => rw [hb] at hhd; simp at hhd
    | some b =>
      obtain ⟨data, hdl, hlen⟩ := ih (idx + 1) (fun fd hfd => h fd (List.mem_cons_of_mem _ hfd))
      refine ⟨(b, hd.name) :: data, ?_, by simp [hlen]⟩
      simp [downloadLoop, hb, hdl, List.range'_succ, Except.map]

/-- Claim C7 (amended): within one request the pipeline is not per-image
sequential: all images are fetched first, in input order (so the whole batch's
bytes are held together), and only afterwards does the model call +
normalization loop run strictly sequentially per image. -/
theorem C7_amended_fetch_all_then_process (fetch : Str → Option Bytes)
    (model : Bytes → ModelOutcome) (persist : PrescriptionData → PrescriptionData)
    (req : UploadRequest)
    (h1 : validateRequest req = Option.none)
    (h2 : ∀ fd ∈ req.fileDetails, (fetch fd.url).isSome) :
    (extract_prescription_data fetch model persist req).events =
      (List.range req.fileDetails.length).map RouteEvent.fetch ++
        processEvents req.fileDetails.length := by
  obtain ⟨data, hdl, hlen⟩ := downloadLoop_ok_of_all_some fetch req.fileDetails 0 h2
  simp [extract_prescription_data, h1, hdl, hlen, List.range_eq_range']

/-- Witness for the amended C7 on the concrete two-image request. -/
theorem C7_amended_witness :
    (extract_prescription_data (fun _ => some []) (fun _ => ModelOutcome.fail) id
        c7Request).events =
      (List.range c7Request.fileDetails.length).map RouteEvent.fetch ++
        processEvents c7Request.fileDetails.length :=
  C7_amended_fetch_all_then_process (fun _ => some []) (fun _ => ModelOutcome.fail) id
    c7Request (by decide) (by decide)

/-! ### Claim C3 -/

/-- The model oracle returning the plain string `t` as message content. -/
def plainStrModel (t : Str) : Bytes → ModelOutcome :=
  fun _ => ModelOutcome.ok (plainStrResponse t)

/-- A model text that begins with `json` and continues with a JSON object. -/
def c3Text : Str :=
  ("json").data ++ (lbraceChar :: ("\"patientName\": \"A\"").data ++ [rbraceChar])

/-- Counterexample to C3 as stated: wrapping `c3Text` in plain triple-backtick
fences makes the `'```json'` prefix-strip consume the leading `json` of the
text itself, so the fenced form parses to a record carrying a patient name
while the unfenced form fails to parse and yields the empty record. -/
theorem C3_counterexample :
    extract_from_image (plainStrModel (fenceStr ++ c3Text ++ fenceStr)) []
        (("a.jpg").data) ≠
      extract_from_image (plainStrModel c3Text) [] (("a.jpg").data) := by decide

theorem pySpace_backquote : pySpace backquoteChar = false := by decide

theorem stripL_of_head_bq (l : Str) : stripL (backquoteChar :: l) = backquoteChar :: l := by
  simp [stripL, List.dropWhile_cons, pySpace_backquote]

theorem stripR_of_last_fence (x : Str) : stripR (x ++ fenceStr) = x ++ fenceStr := by
  unfold stripR
  rw [List.reverse_append]
  have hrev : fenceStr.reverse ++ x.reverse =
      backquoteChar :: backquoteChar :: backquoteChar :: x.reverse := by
    simp [fenceStr]
  rw [hrev]
  simp [List.dropWhile_cons, pySpace_backquote, fenceStr]

theorem pyStrip_bq_wrap (mid : Str) :
    pyStrip ((backquoteChar :: mid) ++ fenceStr) = (backquoteChar :: mid) ++ fenceStr := by
  unfold pyStrip
  rw [show (backquoteChar :: mid) ++ fenceStr = backquoteChar :: (mid ++ fenceStr) from rfl]
  rw [stripL_of_head_bq]
  exact stripR_of_last_fence (backquoteChar :: mid)

theorem pyStrip_fix_json (t : Str) :
    pyStrip (fenceJsonStr ++ t ++ fenceStr) = fenceJsonStr ++ t ++ fenceStr := by
  have h : fenceJsonStr ++ t ++ fenceStr =
      (backquoteChar :: ([backquoteChar, backquoteChar, 'j', 's', 'o', 'n'] ++ t)) ++
        fenceStr := by
    simp [fenceJsonStr]
  rw [h]
  exact pyStrip_bq_wrap ([backquoteChar, backquoteChar, 'j', 's', 'o', 'n'] ++ t)

theorem pyStrip_fix_plain (t : Str) :
    pyStrip (fenceStr ++ t ++ fenceStr) = fenceStr ++ t ++ fenceStr := by
  have h : fenceStr ++ t ++ fenceStr =
      (backquoteChar :: ([backquoteChar, backquoteChar] ++ t)) ++ fenceStr := by
    simp [fenceStr]
  rw [h]
  exact pyStrip_bq_wrap ([backquoteChar, backquoteChar] ++ t)

theorem drop7_jsonwrap (x : Str) : (fenceJsonStr ++ x).drop 7 = x := by
  simp [fenceJsonStr]

theorem drop3_fencewrap (x : Str) : (fenceStr ++ x).drop 3 = x := by
  simp [fenceStr]

theorem endsWith_fence (t : Str) : endsWith (t ++ fenceStr) fenceStr = true := by
  unfold endsWith
  rw [List.reverse_append]
  have hrev : fenceStr.reverse = fenceStr := by decide
  rw [hrev]
  exact startsWith_append_self fenceStr t.reverse

theorem dropRightN_fence (t : Str) : dropRightN (t ++ fenceStr) 3 = t := by
  unfold dropRightN
  rw [List.reverse_append]
  have hrev : fenceStr.reverse = fenceStr := by decide
  rw [hrev]
  simp [fenceStr]

theorem not_startsWith_fence_of_nobq (u : Str) (h : backquoteChar ∉ u) :
    startsWith u fenceStr = false := by
  cases u with
  | nil => rfl
  | cons c l =>
    have hc : (c == backquoteChar) = false :=
      beq_eq_false_iff_ne.mpr (fun e => h (e ▸ List.mem_cons_self c l))
    simp [startsWith, fenceStr, hc]

theorem not_startsWith_jsonfence_of_nobq (u : Str) (h : backquoteChar ∉ u) :
    startsWith u fenceJsonStr = false := by
  cases u with
  | nil => rfl
  | cons c l =>
    have hc : (c == backquoteChar) = false :=
      beq_eq_false_iff_ne.mpr (fun e => h (e ▸ List.mem_cons_self c l))
    simp [startsWith, fenceJsonStr, hc]

theorem not_endsWith_fence_of_nobq (u : Str) (h : backquoteChar ∉ u) :
    endsWith u fenceStr = false := by
  unfold endsWith
  have hmem : backquoteChar ∉ u.reverse := by simpa using h
  have hrev : fenceStr.reverse = fenceStr := by decide
  rw [hrev]
  exact not_startsWith_fence_of_nobq u.reverse hmem

theorem nobq_stripL (l : Str) (h : backquoteChar ∉ l) : backquoteChar ∉ stripL l :=
  fun hmem => h (List.Sublist.mem hmem (List.dropWhile_sublist pySpace))

theorem nobq_stripR (l : Str) (h : backquoteChar ∉ l) : backquoteChar ∉ stripR l := by
  intro hmem
  unfold stripR at hmem
  rw [List.mem_reverse] at hmem
  exact h (List.mem_reverse.mp (List.Sublist.mem hmem (List.dropWhile_sublist pySpace)))

theorem nobq_pyStrip (t : Str) (h : backquoteChar ∉ t) : backquoteChar ∉ pyStrip t :=
  nobq_stripR (stripL t) (nobq_stripL t h)

theorem dropWhile_dropWhile (p : Char → Bool) (l : Str) :
    List.dropWhile p (List.dropWhile p l) = List.dropWhile p l := by
  induction l with
  | nil => rfl
  | cons c t ih =>
    cases hc : p c with
    | true => simp [List.dropWhile_cons, hc, ih]
    | false => simp [List.dropWhile_cons, hc]

theorem stripL_stripL (l : Str) : stripL (stripL l) = stripL l :=
  dropWhile_dropWhile pySpace l

theorem stripR_stripR (l : Str) : stripR (stripR l) = stripR l := by
  unfold stripR
  rw [List.reverse_reverse, dropWhile_dropWhile]

theorem stripR_isPre (l : Str) : stripR l <+: l := by
  have h2 : (stripR l).reverse <:+ l.reverse := by
    unfold stripR
    rw [List.reverse_reverse]
    exact List.dropWhile_suffix pySpace
  exact List.reverse_suffix.mp h2

theorem stripL_stripR_of_fix (a : Str) (h : stripL a = a) :
    stripL (stripR a) = stripR a := by
  cases hA : stripR a with
  | nil => rfl
  | cons c r =>
    obtain ⟨k, hk⟩ := stripR_isPre a
    rw [hA] at hk
    have hA2 : a = c :: (r ++ k) := by rw [← hk]; rfl
    have hcfalse : pySpace c = false := by
      by_contra hc
      rw [Bool.not_eq_false] at hc
      rw [hA2] at h
      rw [stripL, List.dropWhile_cons, hc, if_pos rfl] at h
      have hle : (List.dropWhile pySpace (r ++ k)).length ≤ (r ++ k).length :=
        (List.dropWhile_sublist pySpace).length_le
      rw [h] at hle
      simp only [List.length_cons] at hle
      omega
    rw [show stripL (c :: r) = c :: r from by
      simp [stripL, List.dropWhile_cons, hcfalse]]

theorem pyStrip_idem (l : Str) : pyStrip (pyStrip l) = pyStrip l := by
  unfold pyStrip
  rw [stripL_stripR_of_fix (stripL l) (stripL_stripL l), stripR_stripR]

theorem cleanupFences_of_nobq (u : Str) (h : backquoteChar ∉ u) :
    cleanupFences u = pyStrip u := by
  simp [cleanupFences, not_startsWith_jsonfence_of_nobq u h,
    not_startsWith_fence_of_nobq u h, not_endsWith_fence_of_nobq u h]

theorem cleanupFences_jsonwrap (t : Str) (hb : backquoteChar ∉ t) :
    cleanupFences (fenceJsonStr ++ t ++ fenceStr) = pyStrip t := by
  cases t with
  | nil => decide
  | cons c t' =>
    have hc : (c == backquoteChar) = false :=
      beq_eq_false_iff_ne.mpr (fun e => hb (e ▸ List.mem_cons_self c t'))
    have h1 : startsWith (fenceJsonStr ++ (c :: t') ++ fenceStr) fenceJsonStr = true := by
      rw [List.append_assoc]
      exact startsWith_append_self fenceJsonStr ((c :: t') ++ fenceStr)
    have h2 : (fenceJsonStr ++ (c :: t') ++ fenceStr).drop 7 = (c :: t') ++ fenceStr := by
      rw [List.append_assoc]
      exact drop7_jsonwrap ((c :: t') ++ fenceStr)
    have h3 : startsWith ((c :: t') ++ fenceStr) fenceStr = false := by
      simp [startsWith, fenceStr, hc]
    have h4 : endsWith ((c :: t') ++ fenceStr) fenceStr = true := endsWith_fence (c :: t')
    have h5 : dropRightN ((c :: t') ++ fenceStr) 3 = c :: t' := dropRightN_fence (c :: t')
    simp only [cleanupFences, h1, if_true, h2]
    simp only [h3, Bool.false_eq_true, if_false, h4, h5]
    simp

theorem startsWith_json_fence_tail (t : Str) :
    startsWith (t ++ fenceStr) (("json").data) = startsWith t (("json").data) := by
  have hs : (backquoteChar == 's') = false := by decide
  have ho : (backquoteChar == 'o') = false := by decide
  have hn : (backquoteChar == 'n') = false := by decide
  rcases t with _ | ⟨a, _ | ⟨b, _ | ⟨c, _ | ⟨d, rest⟩⟩⟩⟩
  · decide
  · simp [startsWith, fenceStr, hs]
  · simp [startsWith, fenceStr, ho]
  · simp [startsWith, fenceStr, hn]
  · simp [startsWith, startsWith_nilpat]

theorem cleanupFences_plainwrap (t : Str) (hj : startsWith t (("json").data) = false) :
    cleanupFences (fenceStr ++ t ++ fenceStr) = pyStrip t := by
  have h1 : startsWith (fenceStr ++ t ++ fenceStr) fenceJsonStr = false := by
    rw [List.append_assoc]
    rw [show fenceJsonStr = fenceStr ++ ("json").data from by decide]
    rw [startsWith_append_pre, startsWith_json_fence_tail]
    exact hj
  have h2 : startsWith (fenceStr ++ t ++ fenceStr) fenceStr = true := by
    rw [List.append_assoc]
    exact startsWith_append_self fenceStr (t ++ fenceStr)
  have h3 : (fenceStr ++ t ++ fenceStr).drop 3 = t ++ fenceStr := by
    rw [List.append_assoc]
    exact drop3_fencewrap (t ++ fenceStr)
  have h4 : endsWith (t ++ fenceStr) fenceStr = true := endsWith_fence t
  have h5 : dropRightN (t ++ fenceStr) 3 = t := dropRightN_fence t
  simp only [cleanupFences, h1, Bool.false_eq_true, if_false, h2, if_true, h3, h4, h5]

/-- Claim C3 (amended): for every model output text containing no backtick
character, wrapping it in annotated `'```json' ... '```'` fences normalizes to
the same record as the unfenced text; the same holds for plain
`'```' ... '```'` fences provided the text does not itself start with `json`
(otherwise the cleanup's `'```json'` prefix-strip eats those four characters
of the text — see the counterexample). -/
theorem C3_amended_fenced_normalizes_same (t : Str) (image_bytes : Bytes)
    (image_filename : Str) (hb : backquoteChar ∉ t) :
    (extract_from_image (plainStrModel (fenceJsonStr ++ t ++ fenceStr)) image_bytes
        image_filename =
      extract_from_image (plainStrModel t) image_bytes image_filename) ∧
    (startsWith t (("json").data) = false →
      extract_from_image (plainStrModel (fenceStr ++ t ++ fenceStr)) image_bytes
          image_filename =
        extract_from_image (plainStrModel t) image_bytes image_filename) := by
  have hpipe : ∀ s : Str,
      extract_from_image (plainStrModel s) image_bytes image_filename =
        (match parseJson (cleanupFences (pyStrip s)) with
         | Option.none => create_empty_prescription image_filename
         | some data =>
           match buildPrescription data image_filename with
           | Option.none => create_empty_prescription image_filename
           | some p => p) := fun s => rfl
  have hunfenced : cleanupFences (pyStrip t) = pyStrip t := by
    rw [cleanupFences_of_nobq (pyStrip t) (nobq_pyStrip t hb), pyStrip_idem]
  constructor
  · rw [hpipe, hpipe, pyStrip_fix_json, cleanupFences_jsonwrap t hb, hunfenced]
  · intro hj
    rw [hpipe, hpipe, pyStrip_fix_plain, cleanupFences_plainwrap t hj, hunfenced]

/-- A backtick-free JSON-object text for the C3 witness. -/
def c3Good : Str := lbraceChar :: ("\"patientName\": \"A\"").data ++ [rbraceChar]

/-- Witness for the amended C3 on a concrete backtick-free text. -/
theorem C3_amended_witness :
    (extract_from_image (plainStrModel (fenceJsonStr ++ c3Good ++ fenceStr)) []
        (("w.jpg").data) =
      extract_from_image (plainStrModel c3Good) [] (("w.jpg").data)) ∧
    (startsWith c3Good (("json").data) = false →
      extract_from_image (plainStrModel (fenceStr ++ c3Good ++ fenceStr)) []
          (("w.jpg").data) =
        extract_from_image (plainStrModel c3Good) [] (("w.jpg").data)) :=
  C3_amended_fenced_normalizes_same c3Good [] (("w.jpg").data) (by decide)
